import Mathlib

/-!
Verification of the medal-table server (src/server.js): the
fetch-normalize-rank pipeline.  JavaScript numbers are modelled as
`Option ℚ` (`none` = NaN); JSON values as the inductive `Json`;
fallible JavaScript code as `Except JsErr`.  Each definition is a
direct translation of the correspondingly named function in
src/server.js.
-/

/-- A JavaScript number: `none` models NaN, `some q` a finite value.
(The medal counts and weights appearing in this program are small
exact decimals, so rationals model the float arithmetic exactly.) -/
def JSNum : Type := Option ℚ

instance : DecidableEq JSNum := inferInstanceAs (DecidableEq (Option ℚ))

instance : Repr JSNum := inferInstanceAs (Repr (Option ℚ))

/-- JS addition: NaN propagates. -/
def jsAdd : JSNum → JSNum → JSNum
  | some a, some b => some (a + b)
  | _, _ => none

/-- JS multiplication: NaN propagates. -/
def jsMul : JSNum → JSNum → JSNum
  | some a, some b => some (a * b)
  | _, _ => none

/-- JS subtraction: NaN propagates. -/
def jsSub : JSNum → JSNum → JSNum
  | some a, some b => some (a - b)
  | _, _ => none

/-- JS strict inequality `x !== y` on numbers: NaN is unequal to
everything (including itself). -/
def jsStrictNe : JSNum → JSNum → Bool
  | some a, some b => decide (a ≠ b)
  | _, _ => true

/-- Characters treated as whitespace by JS (`\s`, `trim`, `Number('')`). -/
def isJsSpace (c : Char) : Bool :=
  c = ' ' || c = '\t' || c = '\n' || c = '\r' || c = '\x0b' || c = '\x0c' ||
  c = ' '

/-- Digit run to a natural number. -/
def digitsVal (l : List Char) : Nat :=
  l.foldl (fun acc c => acc * 10 + (c.toNat - '0'.toNat)) 0

/-- JS `Number(string)`: trims whitespace, the empty string is 0, an
optional sign followed by decimal digits with an optional fraction is
its value, anything else is NaN.  (The hex/exponent forms accepted by
JS do not occur in this program's inputs.) -/
def parseJsNumber (s : String) : JSNum :=
  let t := ((s.data.dropWhile isJsSpace).reverse.dropWhile isJsSpace).reverse
  if t.isEmpty then some 0 else
  let (sign, rest) : ℚ × List Char :=
    match t with
    | '+' :: r => (1, r)
    | '-' :: r => (-1, r)
    | r => (1, r)
  let intPart := rest.takeWhile Char.isDigit
  let rest2 := rest.dropWhile Char.isDigit
  match rest2 with
  | [] =>
    if intPart.isEmpty then none
    else some (sign * (digitsVal intPart : ℚ))
  | '.' :: frac =>
    if frac.all Char.isDigit && !(intPart.isEmpty && frac.isEmpty) then
      some (sign * ((digitsVal intPart : ℚ) +
        (digitsVal frac : ℚ) / ((10 : ℚ) ^ frac.length)))
    else none
  | _ => none

/-- A JSON value (the result of JSON.parse / res.json()). -/
inductive Json where
  | null : Json
  | bool (b : Bool) : Json
  | num (q : ℚ) : Json
  | str (s : String) : Json
  | arr (elems : List Json) : Json
  | obj (fields : List (String × Json)) : Json

/-- JS truthiness of a JSON value. -/
def jsTruthy : Json → Bool
  | .null => false
  | .bool b => b
  | .num q => decide (q ≠ 0)
  | .str s => decide (s ≠ "")
  | .arr _ => true
  | .obj _ => true

/-- Property lookup on a JS object built from JSON: the last binding of
a duplicated key wins, as in JSON.parse / object literals. -/
def lookupField (fs : List (String × Json)) (k : String) : Option Json :=
  fs.foldl (fun acc p => if p.1 = k then some p.2 else acc) none

/-- A possibly-undefined JS value: `none` is `undefined`. -/
def JsVal : Type := Option Json

/-- Truthiness of a possibly-undefined value (`undefined` is falsy). -/
def jsValTruthy : JsVal → Bool
  | none => false
  | some j => jsTruthy j

/-- JS `Number(v)` coercion: undefined → NaN, null → 0, booleans → 0/1,
strings via `parseJsNumber`, plain objects → NaN, arrays via their
joined-string primitive ([] → 0, a single primitive element → that
element's coercion, anything else → NaN as its join contains a comma
or non-numeric text). -/
def jsToNumber : JsVal → JSNum
  | none => none
  | some .null => some 0
  | some (.bool b) => some (if b then 1 else 0)
  | some (.num q) => some q
  | some (.str s) => parseJsNumber s
  | some (.obj _) => none
  | some (.arr []) => some 0
  | some (.arr [x]) =>
    match x with
    | .null => some 0
    | .num q => some q
    | .str s => parseJsNumber s
    | _ => none
  | some (.arr _) => none

/-- The raw record handed to `withScore`: the spread fields `code` and
`name` (always strings at every call site) plus the four count fields,
which may be any JS value (strings from the regex extractors, arbitrary
JSON cells from the API path, `undefined` when a cell is missing). -/
structure RawEntry where
  code : String
  name : String
  gold : JsVal
  silver : JsVal
  bronze : JsVal
  total : JsVal

/-- The canonical team record produced by `withScore`.  `total` is
`Option JSNum` because the sorter guards a missing `total` with
`?? 0`; `withScore` itself always sets it. -/
structure Team where
  code : String
  name : String
  gold : JSNum
  silver : JSNum
  bronze : JSNum
  total : Option JSNum
  score : JSNum
deriving DecidableEq, Repr

/-- src/server.js lines 20-32: the record normalizer.

    function withScore(entry) {
      const g = Number(entry.gold); const s = Number(entry.silver);
      const b = Number(entry.bronze);
      return { ...entry, gold: g, silver: s, bronze: b,
        total: entry.total ? Number(entry.total) : g + s + b,
        score: g * 3 + s * 1.5 + b * 1 }; } -/
def withScore (entry : RawEntry) : Team :=
  let g := jsToNumber entry.gold
  let s := jsToNumber entry.silver
  let b := jsToNumber entry.bronze
  { code := entry.code
    name := entry.name
    gold := g
    silver := s
    bronze := b
    total := some (if jsValTruthy entry.total then jsToNumber entry.total
                   else jsAdd (jsAdd g s) b)
    score := jsAdd (jsAdd (jsMul g (some 3)) (jsMul s (some (3 / 2))))
               (jsMul b (some 1)) }

/-- The sorter's read of `t.total ?? 0` (`??` fires on a missing field,
not on NaN). -/
def totalKey (t : Team) : JSNum := t.total.getD (some 0)

/-- src/server.js lines 35-41: the 5-key comparator body, returning the
JS number the callback returns (NaN possible). -/
def teamCmp (a b : Team) : JSNum :=
  if jsStrictNe b.score a.score then jsSub b.score a.score
  else if jsStrictNe b.gold a.gold then jsSub b.gold a.gold
  else if jsStrictNe b.silver a.silver then jsSub b.silver a.silver
  else if jsStrictNe b.bronze a.bronze then jsSub b.bronze a.bronze
  else jsSub (totalKey b) (totalKey a)

/-- ES SortCompare: a NaN comparator result counts as 0. -/
def sortKeyVal (r : JSNum) : ℚ := r.getD 0

/-- `a` may be placed before `b`: the comparator does not demand the
opposite order. -/
def teamLe (a b : Team) : Prop := sortKeyVal (teamCmp a b) ≤ 0

instance : DecidableRel teamLe := fun a b =>
  inferInstanceAs (Decidable (sortKeyVal (teamCmp a b) ≤ 0))

/-- src/server.js lines 34-42: `sortTeams` — Array.prototype.sort with
the 5-key comparator, modelled as a stable sort (ES2019 requires
Array.prototype.sort to be stable). -/
def sortTeams (l : List Team) : List Team := List.insertionSort teamLe l

/-- A raw entry whose total field is present but the number 0
(JS: present yet falsy). -/
def zeroTotalEntry : RawEntry :=
  { code := "AAA", name := "Aaland", gold := some (Json.num 1),
    silver := some (Json.num 0), bronze := some (Json.num 0),
    total := some (Json.num 0) }

/-- The spec's Norway scenario entry: counts as digit strings, total
absent. -/
def norwayEntry : RawEntry :=
  { code := "NOR", name := "Norway", gold := some (Json.str "12"),
    silver := some (Json.str "7"), bronze := some (Json.str "7"),
    total := none }

/-- C2: for every Team produced by the normalizer, the score field is
exactly gold*3 + silver*1.5 + bronze*1 over the coerced tier counts
(JS arithmetic, NaN propagating); when the three coerced counts are
actual numbers the score is the exact rational g*3 + s*1.5 + b*1. -/
theorem c2_withScore_score_formula (e : RawEntry) :
    ((withScore e).score =
      jsAdd (jsAdd (jsMul (withScore e).gold (some 3))
        (jsMul (withScore e).silver (some (3 / 2))))
        (jsMul (withScore e).bronze (some 1)))
    ∧ ∀ g s b : ℚ, (withScore e).gold = some g →
        (withScore e).silver = some s → (withScore e).bronze = some b →
        (withScore e).score = some (g * 3 + s * (3 / 2) + b * 1) := by
  constructor
  · rfl
  · intro g s b hg hs hb
    have hg' : jsToNumber e.gold = some g := hg
    have hs' : jsToNumber e.silver = some s := hs
    have hb' : jsToNumber e.bronze = some b := hb
    show jsAdd (jsAdd (jsMul (jsToNumber e.gold) (some 3))
        (jsMul (jsToNumber e.silver) (some (3 / 2))))
        (jsMul (jsToNumber e.bronze) (some 1)) = _
    rw [hg', hs', hb']
    rfl

/-- Witness for C2 at the Norway entry: the coercions are 12, 7, 7 and
the score is 53.5. -/
theorem c2_witness :
    (withScore norwayEntry).gold = some 12 ∧
    (withScore norwayEntry).score = some (107 / 2) := by
  refine ⟨by with_unfolding_all rfl, ?_⟩
  have h := (c2_withScore_score_formula norwayEntry).2 12 7 7
    (by with_unfolding_all rfl) (by with_unfolding_all rfl)
    (by with_unfolding_all rfl)
  rw [h]
  norm_num

/-- C4 counterexample: a raw record whose total field is present (not
undefined) with value 0, yet the normalizer's output total is the
recomputed sum 1, not the coerced input 0.  The claim as stated — a
present total is copied verbatim — is false. -/
theorem c4_counterexample :
    zeroTotalEntry.total ≠ none ∧
    (withScore zeroTotalEntry).total ≠ some (jsToNumber zeroTotalEntry.total) := by
  constructor
  · simp [zeroTotalEntry]
  · with_unfolding_all decide

/-- C4 as amended: when the total field is present AND truthy, the
output total is the numeric coercion of the input total, verbatim —
even when that disagrees with gold+silver+bronze. -/
theorem c4_total_verbatim_when_truthy (e : RawEntry)
    (h : jsValTruthy e.total = true) :
    (withScore e).total = some (jsToNumber e.total) := by
  show some (if jsValTruthy e.total then jsToNumber e.total else _) = _
  rw [h]
  simp

/-- A raw entry with a truthy total "26" disagreeing with the sum of
its tier counts (1+0+0). -/
def verbatimTotalEntry : RawEntry :=
  { code := "AAA", name := "Aaland", gold := some (Json.num 1),
    silver := some (Json.num 0), bronze := some (Json.num 0),
    total := some (Json.str "26") }

/-- Witness for amended C4: the truthy total "26" is copied verbatim. -/
theorem c4_witness :
    (withScore verbatimTotalEntry).total = some (some 26) := by
  rw [c4_total_verbatim_when_truthy verbatimTotalEntry rfl]
  with_unfolding_all rfl

/-- C5: when the total field is absent (undefined), the output total is
the JS sum gold+silver+bronze of the coerced tier counts. -/
theorem c5_total_sum_when_absent (e : RawEntry) (h : e.total = none) :
    (withScore e).total =
      some (jsAdd (jsAdd (withScore e).gold (withScore e).silver)
        (withScore e).bronze) := by
  show some (if jsValTruthy e.total then jsToNumber e.total else _) = _
  rw [h]
  rfl

/-- Witness for C5: the Norway entry has no total and gets 12+7+7 = 26. -/
theorem c5_witness :
    (withScore norwayEntry).total = some (some 26) := by
  rw [c5_total_sum_when_absent norwayEntry rfl]
  with_unfolding_all rfl

/-- C10: a total field that is present but falsy (the number 0 or the
empty string) is ignored — the output total is the recomputed sum of
the coerced tier counts, so an explicit total of 0 is never kept. -/
theorem c10_falsy_total_recomputed (e : RawEntry)
    (h : e.total = some (Json.num 0) ∨ e.total = some (Json.str "")) :
    (withScore e).total =
      some (jsAdd (jsAdd (withScore e).gold (withScore e).silver)
        (withScore e).bronze) := by
  have hf : jsValTruthy e.total = false := by
    rcases h with h | h <;> rw [h] <;> with_unfolding_all rfl
  show some (if jsValTruthy e.total then jsToNumber e.total else _) = _
  rw [hf]
  rfl

/-- Witness for C10: the zero-total entry (gold 1) ends with total 1,
not its explicit 0. -/
theorem c10_witness :
    (withScore zeroTotalEntry).total = some (some 1) := by
  rw [c10_falsy_total_recomputed zeroTotalEntry (Or.inl rfl)]
  with_unfolding_all rfl

/-- All five comparator keys of a team are actual numbers (no NaN):
this is the Team invariant of the data model (tier counts and score
are finite numbers).  On NaN-poisoned records the JS comparator is
inconsistent and ES leaves the sort order implementation-defined. -/
def Team.numericKeys (t : Team) : Prop :=
  t.score.isSome = true ∧ t.gold.isSome = true ∧ t.silver.isSome = true ∧
  t.bronze.isSome = true ∧ (totalKey t).isSome = true

instance (t : Team) : Decidable t.numericKeys := by
  unfold Team.numericKeys
  exact inferInstance

/-- The comparator's five keys, lexicographically, for numeric teams. -/
def teamKey (t : Team) : Lex (ℚ × Lex (ℚ × Lex (ℚ × Lex (ℚ × ℚ)))) :=
  toLex ((t.score.getD 0), toLex ((t.gold.getD 0), toLex ((t.silver.getD 0),
    toLex ((t.bronze.getD 0), (totalKey t).getD 0))))

/-- One level of the comparator: subtract-and-test against the next
key, as a disjunction. -/
lemma cmpStep_iff (x y : ℚ) (rest : JSNum) :
    sortKeyVal (if jsStrictNe (some x) (some y) = true
        then jsSub (some x) (some y) else rest) ≤ 0
      ↔ (x < y ∨ (x = y ∧ sortKeyVal rest ≤ 0)) := by
  by_cases h : x = y
  · subst h
    simp [jsStrictNe]
  · simp only [jsStrictNe, jsSub, decide_eq_true_eq, h, not_false_iff, if_pos,
      decide_not, sortKeyVal, Option.getD_some]
    rw [if_pos (by simp [h])]
    simp only [Option.getD_some, sub_nonpos, h, false_and, or_false]
    constructor
    · intro hle
      exact lt_of_le_of_ne hle h
    · exact le_of_lt

/-- For teams with numeric keys, the comparator's acceptance relation is
exactly the lexicographic 5-key comparison (higher key first). -/
lemma teamLe_iff_key {a b : Team} (ha : a.numericKeys) (hb : b.numericKeys) :
    teamLe a b ↔ teamKey b ≤ teamKey a := by
  obtain ⟨ha1, ha2, ha3, ha4, ha5⟩ := ha
  obtain ⟨hb1, hb2, hb3, hb4, hb5⟩ := hb
  obtain ⟨sa, hsa⟩ := Option.isSome_iff_exists.mp ha1
  obtain ⟨ga, hga⟩ := Option.isSome_iff_exists.mp ha2
  obtain ⟨va, hva⟩ := Option.isSome_iff_exists.mp ha3
  obtain ⟨ba, hba⟩ := Option.isSome_iff_exists.mp ha4
  obtain ⟨ta, hta⟩ := Option.isSome_iff_exists.mp ha5
  obtain ⟨sb, hsb⟩ := Option.isSome_iff_exists.mp hb1
  obtain ⟨gb, hgb⟩ := Option.isSome_iff_exists.mp hb2
  obtain ⟨vb, hvb⟩ := Option.isSome_iff_exists.mp hb3
  obtain ⟨bb, hbb⟩ := Option.isSome_iff_exists.mp hb4
  obtain ⟨tb, htb⟩ := Option.isSome_iff_exists.mp hb5
  unfold teamLe teamCmp teamKey
  rw [hsa, hsb, hga, hgb, hva, hvb, hba, hbb, hta, htb]
  rw [cmpStep_iff, cmpStep_iff, cmpStep_iff, cmpStep_iff]
  simp only [Prod.Lex.le_iff, Option.getD_some, sortKeyVal, jsSub, sub_nonpos]

/-- Totality of the comparator relation on numeric teams. -/
lemma teamLe_total_of_numeric {a b : Team}
    (ha : a.numericKeys) (hb : b.numericKeys) : teamLe a b ∨ teamLe b a := by
  rw [teamLe_iff_key ha hb, teamLe_iff_key hb ha]
  exact le_total (teamKey b) (teamKey a)

/-- Transitivity of the comparator relation on numeric teams. -/
lemma teamLe_trans_of_numeric {a b c : Team}
    (ha : a.numericKeys) (hb : b.numericKeys) (hc : c.numericKeys) :
    teamLe a b → teamLe b c → teamLe a c := by
  rw [teamLe_iff_key ha hb, teamLe_iff_key hb hc, teamLe_iff_key ha hc]
  intro h1 h2
  exact le_trans h2 h1

/-- Inserting a numeric team into a sorted list of numeric teams keeps
it sorted. -/
lemma sorted_orderedInsert_numeric (a : Team) (ha : a.numericKeys) :
    ∀ l : List Team, (∀ x ∈ l, x.numericKeys) → l.Sorted teamLe →
      (List.orderedInsert teamLe a l).Sorted teamLe
  | [], _, _ => by simp
  | b :: t, hn, hs => by
    rw [List.orderedInsert]
    by_cases hab : teamLe a b
    · rw [if_pos hab]
      rw [List.sorted_cons]
      refine ⟨?_, hs⟩
      intro x hx
      rcases List.mem_cons.mp hx with hxb | hxt
      · exact hxb ▸ hab
      · exact teamLe_trans_of_numeric ha (hn b (List.mem_cons_self b t))
          (hn x hx) hab ((List.sorted_cons.mp hs).1 x hxt)
    · rw [if_neg hab]
      rw [List.sorted_cons]
      constructor
      · intro x hx
        rcases (List.mem_orderedInsert teamLe).mp hx with hxa | hxt
        · subst hxa
          rcases teamLe_total_of_numeric ha (hn b (List.mem_cons_self b t))
            with h | h
          · exact absurd h hab
          · exact h
        · exact (List.sorted_cons.mp hs).1 x hxt
      · exact sorted_orderedInsert_numeric a ha t
          (fun x hx => hn x (List.mem_cons_of_mem b hx))
          (List.sorted_cons.mp hs).2

/-- `sortTeams` sorts any list of numeric teams. -/
lemma sorted_sortTeams_of_numeric :
    ∀ l : List Team, (∀ x ∈ l, x.numericKeys) →
      (sortTeams l).Sorted teamLe
  | [], _ => by simp [sortTeams]
  | a :: t, hn => by
    unfold sortTeams
    rw [List.insertionSort]
    exact sorted_orderedInsert_numeric a (hn a (List.mem_cons_self a t))
      (List.insertionSort teamLe t)
      (fun x hx => hn x (List.mem_cons_of_mem a
        ((List.perm_insertionSort teamLe t).subset hx)))
      (sorted_sortTeams_of_numeric t
        (fun x hx => hn x (List.mem_cons_of_mem a hx)))

/-- C3: for any collection of at least two (numeric-keyed) teams, the
Ranking Sorter returns a sequence that is non-increasing under the
5-key comparator (every earlier element is acceptable before every
later one) and is a permutation of its input. -/
theorem c3_sortTeams_sorted_and_perm (l : List Team) (h2 : 2 ≤ l.length)
    (hn : ∀ t ∈ l, t.numericKeys) :
    (sortTeams l).Sorted teamLe ∧ (sortTeams l).Perm l :=
  ⟨sorted_sortTeams_of_numeric l hn, List.perm_insertionSort teamLe l⟩

/-- The spec's scenario team A: 10 gold, 5 silver, 3 bronze, score
37.5. -/
def teamA : Team :=
  { code := "AAA", name := "A", gold := some 10, silver := some 5,
    bronze := some 3, total := some (some 18), score := some (75 / 2) }

/-- The spec's scenario team B: 9 gold, 9 silver, 9 bronze, score
49.5. -/
def teamB : Team :=
  { code := "BBB", name := "B", gold := some 9, silver := some 9,
    bronze := some 9, total := some (some 27), score := some (99 / 2) }

/-- Witness for C3 on the spec's two-team scenario. -/
theorem c3_witness :
    (sortTeams [teamA, teamB]).Sorted teamLe ∧
    (sortTeams [teamA, teamB]).Perm [teamA, teamB] :=
  c3_sortTeams_sorted_and_perm [teamA, teamB] (by decide)
    (by
      intro t ht
      rcases List.mem_cons.mp ht with h | h
      · subst h
        constructor <;> simp [teamA, totalKey]
      · rcases List.mem_cons.mp h with h' | h'
        · subst h'
          constructor <;> simp [teamB, totalKey]
        · exact absurd h' (List.not_mem_nil t))

/-- Abstract syntax of the regular expressions appearing in
src/server.js: character predicate, sequence, alternative,
greedy/lazy star and capturing group.  Plus (+), option (?) and
bounded repetition are derived forms. -/
inductive Rx where
  | eps : Rx
  | cls (p : Char → Bool) : Rx
  | seq (a b : Rx) : Rx
  | alt (a b : Rx) : Rx
  | star (lz : Bool) (a : Rx) : Rx
  | group (idx : Nat) (a : Rx) : Rx

/-- Backtracking matcher in continuation-passing style, following the
JS regex search order (alternatives left first, greedy stars longest
first, lazy stars shortest first, empty star iterations cut).  The
fuel bounds the recursion; it is ample for every input considered
here. -/
def runRx : Nat → Rx → List Char → List (Nat × List Char) →
    (List Char → List (Nat × List Char) →
      Option (List (Nat × List Char) × List Char)) →
    Option (List (Nat × List Char) × List Char)
  | 0, _, _, _, _ => none
  | _ + 1, .eps, s, caps, k => k s caps
  | _ + 1, .cls p, s, caps, k =>
    match s with
    | [] => none
    | c :: rest => if p c then k rest caps else none
  | fuel + 1, .seq a b, s, caps, k =>
    runRx fuel a s caps (fun s1 c1 => runRx fuel b s1 c1 k)
  | fuel + 1, .alt a b, s, caps, k =>
    match runRx fuel a s caps k with
    | some r => some r
    | none => runRx fuel b s caps k
  | fuel + 1, .star lz a, s, caps, k =>
    if lz then
      match k s caps with
      | some r => some r
      | none =>
        runRx fuel a s caps (fun s1 c1 =>
          if s1.length < s.length then runRx fuel (.star lz a) s1 c1 k
          else none)
    else
      match runRx fuel a s caps (fun s1 c1 =>
          if s1.length < s.length then runRx fuel (.star lz a) s1 c1 k
          else none) with
      | some r => some r
      | none => k s caps
  | fuel + 1, .group i a, s, caps, k =>
    runRx fuel a s caps (fun s1 c1 =>
      k s1 ((i, s.take (s.length - s1.length)) :: c1))

/-- Fuel for the backtracking search over an input of this size. -/
def rxFuel (s : List Char) : Nat := 4000 * (s.length + 1) * (s.length + 1)

/-- Match the pattern at the start of `s`: captures plus match length. -/
def tryMatchAt (rx : Rx) (s : List Char) :
    Option (List (Nat × List Char) × Nat) :=
  match runRx (rxFuel s) rx s [] (fun rest caps => some (caps, rest)) with
  | some (caps, rest) => some (caps, s.length - rest.length)
  | none => none

/-- RegExp.exec: captures of the first match anywhere in the input. -/
def execRx (rx : Rx) : List Char → Option (List (Nat × List Char))
  | [] => (tryMatchAt rx []).map (fun r => r.1)
  | c :: rest =>
    match tryMatchAt rx (c :: rest) with
    | some (caps, _) => some caps
    | none => execRx rx rest

/-- String.matchAll: captures of every (non-overlapping, left-to-right)
match, advancing past each match (by one position after an empty
match, as JS does). -/
def matchAllRx (rx : Rx) : List Char → List (List (Nat × List Char))
  | [] =>
    match tryMatchAt rx [] with
    | some (caps, _) => [caps]
    | none => []
  | c :: rest =>
    match tryMatchAt rx (c :: rest) with
    | none => matchAllRx rx rest
    | some (caps, len) =>
      caps :: matchAllRx rx (if len = 0 then rest else rest.drop (len - 1))
termination_by s => s.length
decreasing_by
  · simp only [List.length_cons]
    omega
  · split <;> simp only [List.length_drop, List.length_cons] <;> omega

/-- The text of capture group `i` (last capture wins, empty when the
group did not participate). -/
def capStr (caps : List (Nat × List Char)) (i : Nat) : String :=
  match caps.find? (fun p => p.1 == i) with
  | some p => String.mk p.2
  | none => ""

/-- One-character pattern. -/
def rxChar (c : Char) : Rx := Rx.cls (fun x => x == c)

/-- One-character pattern, case-insensitive (the i flag). -/
def rxCharCI (c : Char) : Rx := Rx.cls (fun x => x.toLower == c.toLower)

/-- Sequence of patterns. -/
def rxSeqList (l : List Rx) : Rx := l.foldr Rx.seq Rx.eps

/-- Literal string. -/
def rxLit (s : String) : Rx := rxSeqList (s.data.map rxChar)

/-- Literal string under the i flag. -/
def rxLitCI (s : String) : Rx := rxSeqList (s.data.map rxCharCI)

/-- The dot under the s flag (and [\s\S]): any character. -/
def rxAny : Rx := Rx.cls (fun _ => true)

/-- One whitespace character (JS \s). -/
def rxWs : Rx := Rx.cls isJsSpace

/-- \s* -/
def rxWsStar : Rx := Rx.star false rxWs

/-- \s+ -/
def rxWsPlus : Rx := Rx.seq rxWs rxWsStar

/-- Greedy plus. -/
def rxPlusG (a : Rx) : Rx := Rx.seq a (Rx.star false a)

/-- Lazy plus. -/
def rxPlusL (a : Rx) : Rx := Rx.seq a (Rx.star true a)

/-- Optional group (greedy). -/
def rxOpt (a : Rx) : Rx := Rx.alt a Rx.eps

/-- Capturing group of one-or-more digits, (\d+). -/
def rxDigits (i : Nat) : Rx := Rx.group i (rxPlusG (Rx.cls Char.isDigit))

/-- [^>]* -/
def rxNotGtStar : Rx := Rx.star false (Rx.cls (fun c => c != '>'))

/-- [A-Z] -/
def isUpperAZ (c : Char) : Bool := 'A' ≤ c && c ≤ 'Z'

/-- [A-Za-z] -/
def isAsciiLetter (c : Char) : Bool :=
  ('A' ≤ c && c ≤ 'Z') || ('a' ≤ c && c ≤ 'z')

/-- The name character class [A-Za-zÀ-ÖØ-öø-ÿ .()'’-] of server.js. -/
def isNameChar (c : Char) : Bool :=
  isAsciiLetter c || ('À' ≤ c && c ≤ 'Ö') || ('Ø' ≤ c && c ≤ 'ö') ||
  ('ø' ≤ c && c ≤ 'ÿ') || c == ' ' || c == '.' || c == '(' || c == ')' ||
  c == '\'' || c == '’' || c == '-'

/-- src/server.js line 47, the embedded-JSON marker (s flag):

    /"medalStandings":(\[.*?\]),"medalLeaders"/s -/
def medalStandingsRx : Rx :=
  rxSeqList [rxLit "\"medalStandings\":",
    Rx.group 1 (rxSeqList [rxChar '[', Rx.star true rxAny, rxChar ']']),
    rxLit ",\"medalLeaders\""]

/-- src/server.js lines 73-74, the inline Image pattern (g flag):

    /Image:\s*[A-Za-z ]+\s*([A-Z]\x7b3\x7d)\s+([A-Za-zÀ-ÖØ-öø-ÿ .()'’-]+?)
      \s*\|\s*(\d+)\s*\|\s*(\d+)\s*\|\s*(\d+)\s*\|\s*(\d+)/g -/
def imageRx : Rx :=
  rxSeqList [rxLit "Image:", rxWsStar,
    rxPlusG (Rx.cls (fun c => isAsciiLetter c || c == ' ')),
    rxWsStar,
    Rx.group 1 (rxSeqList [Rx.cls isUpperAZ, Rx.cls isUpperAZ,
      Rx.cls isUpperAZ]),
    rxWsPlus,
    Rx.group 2 (rxPlusL (Rx.cls isNameChar)),
    rxWsStar, rxChar '|', rxWsStar, rxDigits 3,
    rxWsStar, rxChar '|', rxWsStar, rxDigits 4,
    rxWsStar, rxChar '|', rxWsStar, rxDigits 5,
    rxWsStar, rxChar '|', rxWsStar, rxDigits 6]

/-- src/server.js lines 89-90, the table-row pattern (gsi flags; under
the i flag the class [A-Z] also matches lowercase letters):

    /<tr[^>]*>\s*<td[^>]*data-text="([A-Z]\x7b3\x7d)"[^>]*>.*?<\/td>
      .*?<td[^>]*>\s*([A-Za-zÀ-ÖØ-öø-ÿ .()'’-]+?)\s*<\/td>
      .*?<td[^>]*>\s*(\d+)\s*<\/td>.*?<td[^>]*>\s*(\d+)\s*<\/td>
      .*?<td[^>]*>\s*(\d+)\s*<\/td>/gsi -/
def tableRowRx : Rx :=
  rxSeqList [rxLitCI "<tr", rxNotGtStar, rxChar '>', rxWsStar,
    rxLitCI "<td", rxNotGtStar, rxLitCI "data-text=\"",
    Rx.group 1 (rxSeqList [Rx.cls isAsciiLetter, Rx.cls isAsciiLetter,
      Rx.cls isAsciiLetter]),
    rxChar '"', rxNotGtStar, rxChar '>',
    Rx.star true rxAny, rxLitCI "</td>",
    Rx.star true rxAny, rxLitCI "<td", rxNotGtStar, rxChar '>',
    rxWsStar, Rx.group 2 (rxPlusL (Rx.cls isNameChar)), rxWsStar,
    rxLitCI "</td>",
    Rx.star true rxAny, rxLitCI "<td", rxNotGtStar, rxChar '>',
    rxWsStar, rxDigits 3, rxWsStar, rxLitCI "</td>",
    Rx.star true rxAny, rxLitCI "<td", rxNotGtStar, rxChar '>',
    rxWsStar, rxDigits 4, rxWsStar, rxLitCI "</td>",
    Rx.star true rxAny, rxLitCI "<td", rxNotGtStar, rxChar '>',
    rxWsStar, rxDigits 5, rxWsStar, rxLitCI "</td>"]

/-- src/server.js line 109, the Wikipedia table locator (i flag):

    /<table class="wikitable sortable plainrowheaders[^"]*"[^>]*>
      ([\s\S]*?)<\/table>/i -/
def wikiTableRx : Rx :=
  rxSeqList [rxLitCI "<table class=\"wikitable sortable plainrowheaders",
    Rx.star false (Rx.cls (fun c => c != '"')), rxChar '"',
    rxNotGtStar, rxChar '>',
    Rx.group 1 (Rx.star true rxAny), rxLitCI "</table>"]

/-- src/server.js lines 114-115, the Wikipedia row pattern (gims):

    /<tr[^>]*>\s*(?:<th[^>]*>.*?<\/th>\s*)?<th scope="row"[^>]*>(.*?)
      <\/th>\s*<td[^>]*>(\d+)<\/td>\s*<td[^>]*>(\d+)<\/td>
      \s*<td[^>]*>(\d+)<\/td>\s*<td[^>]*>(\d+)<\/td>/gims -/
def wikiRowRx : Rx :=
  rxSeqList [rxLitCI "<tr", rxNotGtStar, rxChar '>', rxWsStar,
    rxOpt (rxSeqList [rxLitCI "<th", rxNotGtStar, rxChar '>',
      Rx.star true rxAny, rxLitCI "</th>", rxWsStar]),
    rxLitCI "<th scope=\"row\"", rxNotGtStar, rxChar '>',
    Rx.group 1 (Rx.star true rxAny), rxLitCI "</th>", rxWsStar,
    rxLitCI "<td", rxNotGtStar, rxChar '>', rxDigits 2, rxLitCI "</td>",
    rxWsStar,
    rxLitCI "<td", rxNotGtStar, rxChar '>', rxDigits 3, rxLitCI "</td>",
    rxWsStar,
    rxLitCI "<td", rxNotGtStar, rxChar '>', rxDigits 4, rxLitCI "</td>",
    rxWsStar,
    rxLitCI "<td", rxNotGtStar, rxChar '>', rxDigits 5, rxLitCI "</td>"]

/-- The replace(/<[^>]+>/g, '') step: drop every maximal <...> tag
fragment (at least one non-> character, closed by >). -/
def stripTags : List Char → List Char
  | [] => []
  | '<' :: rest =>
    let inner := rest.takeWhile (fun c => c != '>')
    if inner.length > 0 && rest.length > inner.length then
      stripTags (rest.drop (inner.length + 1))
    else '<' :: stripTags rest
  | c :: rest => c :: stripTags rest
termination_by s => s.length
decreasing_by
  · simp only [List.length_cons, List.length_drop]
    omega
  · simp only [List.length_cons]
    omega
  · simp only [List.length_cons]
    omega

/-- The replace named-character-reference step: each nbsp entity
becomes a space. -/
def replaceNbsp : List Char → List Char
  | '&' :: 'n' :: 'b' :: 's' :: 'p' :: ';' :: rest => ' ' :: replaceNbsp rest
  | c :: rest => c :: replaceNbsp rest
  | [] => []

/-- JS String.prototype.trim. -/
def jsTrim (s : String) : String :=
  String.mk (((s.data.dropWhile isJsSpace).reverse.dropWhile
    isJsSpace).reverse)

/-- JSON whitespace. -/
def jsonWs (s : List Char) : List Char :=
  s.dropWhile (fun c => c == ' ' || c == '\t' || c == '\n' || c == '\r')

/-- Numeric value of one hexadecimal digit (by code point: 0-9, a-f,
A-F). -/
def hexDigitVal (c : Char) : Option Nat :=
  let n := c.toNat
  if 48 ≤ n && n ≤ 57 then some (n - 48)
  else if 97 ≤ n && n ≤ 102 then some (n - 87)
  else if 65 ≤ n && n ≤ 70 then some (n - 55)
  else none

/-- Body of a JSON string after the opening quote: content and rest. -/
def parseStringBody : List Char → Except String (List Char × List Char)
  | [] => .error "unterminated string in JSON"
  | '"' :: rest => .ok ([], rest)
  | '\\' :: e :: rest =>
    match e with
    | '"' => (parseStringBody rest).map (fun p => ('"' :: p.1, p.2))
    | '\\' => (parseStringBody rest).map (fun p => ('\\' :: p.1, p.2))
    | '/' => (parseStringBody rest).map (fun p => ('/' :: p.1, p.2))
    | 'b' => (parseStringBody rest).map (fun p => ('\x08' :: p.1, p.2))
    | 'f' => (parseStringBody rest).map (fun p => ('\x0c' :: p.1, p.2))
    | 'n' => (parseStringBody rest).map (fun p => ('\n' :: p.1, p.2))
    | 'r' => (parseStringBody rest).map (fun p => ('\r' :: p.1, p.2))
    | 't' => (parseStringBody rest).map (fun p => ('\t' :: p.1, p.2))
    | 'u' =>
      match rest with
      | h1 :: h2 :: h3 :: h4 :: rest2 =>
        match hexDigitVal h1, hexDigitVal h2, hexDigitVal h3, hexDigitVal h4 with
        | some a, some b, some c, some d =>
          (parseStringBody rest2).map (fun p =>
            (Char.ofNat (((a * 16 + b) * 16 + c) * 16 + d) :: p.1, p.2))
        | _, _, _, _ => .error "bad unicode escape in JSON"
      | _ => .error "bad unicode escape in JSON"
    | _ => .error "bad escape in JSON string"
  | c :: rest =>
    if c.toNat < 32 then .error "control character in JSON string"
    else (parseStringBody rest).map (fun p => (c :: p.1, p.2))
termination_by s => s.length
decreasing_by all_goals (simp only [List.length_cons]; omega)

/-- A JSON number value from sign, digits, fraction digits and decimal
exponent. -/
def numOfParts (neg : Bool) (ip fp : List Char) (ex : Int) : ℚ :=
  let base : ℚ := (digitsVal ip : ℚ) + (digitsVal fp : ℚ) / (10 : ℚ) ^ fp.length
  let signed : ℚ := if neg then -base else base
  if 0 ≤ ex then signed * (10 : ℚ) ^ ex.toNat
  else signed / (10 : ℚ) ^ (-ex).toNat

/-- Signed digit run of a JSON exponent. -/
def parseSignedDigits (r : List Char) : Except String (Int × List Char) :=
  let (neg, r1) : Bool × List Char :=
    match r with
    | '+' :: t => (false, t)
    | '-' :: t => (true, t)
    | t => (false, t)
  let ds := r1.takeWhile Char.isDigit
  if ds.isEmpty then .error "invalid exponent in JSON number"
  else .ok (if neg then -(digitsVal ds : Int) else (digitsVal ds : Int),
    r1.dropWhile Char.isDigit)

/-- Optional exponent part of a JSON number. -/
def parseExpPart (r : List Char) : Except String (Int × List Char) :=
  match r with
  | 'e' :: r2 => parseSignedDigits r2
  | 'E' :: r2 => parseSignedDigits r2
  | _ => .ok (0, r)

/-- A JSON number starting at `s` (grammar of JSON.parse, including its
leading-zero restriction). -/
def parseNumLit (s : List Char) : Except String (Json × List Char) :=
  let (neg, s1) : Bool × List Char :=
    match s with
    | '-' :: r => (true, r)
    | r => (false, r)
  let ip := s1.takeWhile Char.isDigit
  let r1 := s1.dropWhile Char.isDigit
  if ip.isEmpty then .error "invalid JSON number" else
  if ip.length > 1 && ip.head? == some '0' then
    .error "leading zero in JSON number" else
  match r1 with
  | '.' :: r =>
    let fp := r.takeWhile Char.isDigit
    if fp.isEmpty then .error "invalid JSON number fraction" else
    (parseExpPart (r.dropWhile Char.isDigit)).map (fun p =>
      (Json.num (numOfParts neg ip fp p.1), p.2))
  | _ =>
    (parseExpPart r1).map (fun p => (Json.num (numOfParts neg ip [] p.1), p.2))

mutual

/-- One JSON value (fueled recursive descent, as JSON.parse). -/
def parseVal : Nat → List Char → Except String (Json × List Char)
  | 0, _ => .error "JSON nesting too deep"
  | fuel + 1, s =>
    match jsonWs s with
    | [] => .error "unexpected end of JSON input"
    | 'n' :: 'u' :: 'l' :: 'l' :: rest => .ok (.null, rest)
    | 't' :: 'r' :: 'u' :: 'e' :: rest => .ok (.bool true, rest)
    | 'f' :: 'a' :: 'l' :: 's' :: 'e' :: rest => .ok (.bool false, rest)
    | '"' :: rest =>
      (parseStringBody rest).map (fun p => (.str (String.mk p.1), p.2))
    | '[' :: rest =>
      (match jsonWs rest with
       | ']' :: r2 => .ok (.arr [], r2)
       | r1 => (parseElems fuel r1 []).map (fun p => (Json.arr p.1, p.2)))
    | '\x7b' :: rest =>
      (match jsonWs rest with
       | '\x7d' :: r2 => .ok (.obj [], r2)
       | r1 => (parseMembers fuel r1 []).map (fun p => (Json.obj p.1, p.2)))
    | c :: r =>
      if c == '-' || c.isDigit then parseNumLit (c :: r)
      else .error "unexpected token in JSON"

/-- Comma-separated array elements up to the closing bracket. -/
def parseElems : Nat → List Char → List Json →
    Except String (List Json × List Char)
  | 0, _, _ => .error "JSON nesting too deep"
  | fuel + 1, s, acc =>
    match parseVal fuel s with
    | .error e => .error e
    | .ok (v, r) =>
      match jsonWs r with
      | ',' :: r2 => parseElems fuel r2 (v :: acc)
      | ']' :: r2 => .ok ((v :: acc).reverse, r2)
      | _ => .error "expected comma or close bracket in JSON array"

/-- Comma-separated object members up to the closing brace. -/
def parseMembers : Nat → List Char → List (String × Json) →
    Except String (List (String × Json) × List Char)
  | 0, _, _ => .error "JSON nesting too deep"
  | fuel + 1, s, acc =>
    match jsonWs s with
    | '"' :: rest =>
      (match parseStringBody rest with
       | .error e => .error e
       | .ok (key, r) =>
         match jsonWs r with
         | ':' :: r2 =>
           (match parseVal fuel r2 with
            | .error e => .error e
            | .ok (v, r3) =>
              match jsonWs r3 with
              | ',' :: r4 => parseMembers fuel r4 ((String.mk key, v) :: acc)
              | '\x7d' :: r4 => .ok (((String.mk key, v) :: acc).reverse, r4)
              | _ => .error "expected comma or close brace in JSON object")
         | _ => .error "expected colon in JSON object")
    | _ => .error "expected string key in JSON object"

end

/-- JSON.parse (also used by res.json()): parse one value, then only
whitespace may remain. -/
def jsonParse (s : String) : Except String Json :=
  match parseVal (2 * (s.length + 1)) s.data with
  | .error e => .error e
  | .ok (v, rest) =>
    if (jsonWs rest).isEmpty then .ok v
    else .error "unexpected trailing characters in JSON"

/-- A failure travelling through the pipeline.  JS Error objects are
distinct values; the API empty-result error and fetchMedals' terminal
error get their own constructors, transport-layer failures carry their
message, and TypeErrors raised by the row mapping carry theirs. -/
inductive JsErr where
  | transport (msg : String) : JsErr
  | thrown (msg : String) : JsErr
  | noEntries : JsErr
  | terminal : JsErr
deriving DecidableEq, Repr

/-- Optional chaining `v?.k`: undefined and null short-circuit to
undefined, property access on other primitives yields undefined,
objects are looked up. -/
def jsFieldOpt (v : JsVal) (k : String) : JsVal :=
  match v with
  | some (Json.obj fs) => lookupField fs k
  | _ => none

/-- Optional chaining `v?.[i]`: arrays index their elements, strings
their characters, objects their numeric-string key; anything else is
undefined. -/
def jsIndexOpt (v : JsVal) (i : Nat) : JsVal :=
  match v with
  | some (Json.arr es) => es.get? i
  | some (Json.str s) => (s.data.get? i).map (fun c => Json.str (String.mk [c]))
  | some (Json.obj fs) => lookupField fs (toString i)
  | _ => none

/-- Plain property access `v.k` (no optional chaining): throws on
undefined and null bases, yields undefined on other primitives. -/
def jsFieldEx (v : Json) (k : String) : Except JsErr JsVal :=
  match v with
  | Json.null => .error (.thrown "cannot read properties of null")
  | Json.obj fs => .ok (lookupField fs k)
  | _ => .ok none

/-- `(x || []).map(...)` receiver: a falsy value gives the empty list,
an array its elements; any truthy non-array has no .map and throws. -/
def rowsToMap (v : JsVal) : Except JsErr (List Json) :=
  match v with
  | none => .ok []
  | some Json.null => .ok []
  | some (Json.bool false) => .ok []
  | some (Json.bool true) => .error (.thrown "map is not a function")
  | some (Json.num q) =>
    if q = 0 then .ok [] else .error (.thrown "map is not a function")
  | some (Json.str s) =>
    if s = "" then .ok [] else .error (.thrown "map is not a function")
  | some (Json.obj _) => .error (.thrown "map is not a function")
  | some (Json.arr es) => .ok es

/-- Array destructuring `const [a,b,c,d,e] = x || []`: a falsy x gives
the empty iteration, arrays iterate their elements, strings their
characters; any other truthy value is not iterable and throws. -/
def destructure (v : JsVal) : Except JsErr (List JsVal) :=
  match v with
  | none => .ok []
  | some Json.null => .ok []
  | some (Json.bool false) => .ok []
  | some (Json.bool true) => .error (.thrown "is not iterable")
  | some (Json.num q) =>
    if q = 0 then .ok [] else .error (.thrown "is not iterable")
  | some (Json.str s) =>
    if s = "" then .ok []
    else .ok (s.data.map (fun c => some (Json.str (String.mk [c]))))
  | some (Json.obj _) => .error (.thrown "is not iterable")
  | some (Json.arr es) => .ok (es.map some)

/-- `typeof countryCell === 'object' ? countryCell.text : countryCell`:
null is of object type and throws on .text, objects look text up,
arrays have no text field (undefined), any other value passes
through. -/
def countryNameOf (countryCell : JsVal) : Except JsErr JsVal :=
  match countryCell with
  | none => .ok none
  | some Json.null => .error (.thrown "cannot read properties of null")
  | some (Json.obj fs) => .ok (lookupField fs "text")
  | some (Json.arr _) => .ok none
  | some v => .ok (some v)

/-- `name ? name.slice(0, 3).toUpperCase() : ''` and `name || ''`:
an empty or undefined (falsy) name gives empty code and name; a truthy
string is sliced and uppercased; a truthy non-string has no .slice and
throws.  (JS toUpperCase also uppercases accented letters; the codes
appearing here are ASCII.) -/
def codeAndName (name : JsVal) : Except JsErr (String × String) :=
  match name with
  | some (Json.str s) =>
    if s = "" then .ok ("", "")
    else .ok ((s.take 3).toUpper, s)
  | none => .ok ("", "")
  | some v =>
    if jsTruthy v then .error (.thrown "slice is not a function")
    else .ok ("", "")

/-- src/server.js lines 146-157 (and identically lines 52-64): map one
row of the medal-standings shape to a Team.

    const [countryCell, gold, silver, bronze, total] = row.cells || [];
    const name = typeof countryCell === 'object' ? countryCell.text
                                                 : countryCell;
    return withScore(\x7b code: name ? name.slice(0, 3).toUpperCase()
                                     : '',
      name: name || '', gold, silver, bronze, total \x7d); -/
def rowToTeam (row : Json) : Except JsErr Team := do
  let cellsVal ← jsFieldEx row "cells"
  let cells ← destructure cellsVal
  let countryCell := (cells.get? 0).getD none
  let name ← countryNameOf countryCell
  let cn ← codeAndName name
  pure (withScore
    { code := cn.1
      name := cn.2
      gold := (cells.get? 1).getD none
      silver := (cells.get? 2).getD none
      bronze := (cells.get? 3).getD none
      total := (cells.get? 4).getD none })

/-- src/server.js lines 144-145: the rows of the API response,
`data?.medalStandings?.[0]?.rows || []`, as handed to .map. -/
def apiRowsOf (data : Json) : Except JsErr (List Json) :=
  rowsToMap (jsFieldOpt (jsIndexOpt (jsFieldOpt (some data)
    "medalStandings") 0) "rows")

/-- src/server.js lines 133-161: the Structured-API Extractor applied
to the parsed JSON response (the network part is the caller's): map
the rows, throw when no entries came back, sort otherwise. -/
def fetchApiJsonModel (data : Json) : Except JsErr (List Team) := do
  let rows ← apiRowsOf data
  let teams ← rows.mapM rowToTeam
  if teams.isEmpty then throw JsErr.noEntries
  else pure (sortTeams teams)

/-- src/server.js lines 49-64, the embedded-JSON strategy inside the
try block: JSON.parse the captured fragment, read
`standings?.[0]?.rows || []` and map the same row shape as the API
extractor.  Any throw inside is caught by parseFromHtml. -/
def embeddedStandings (captured : String) : Except JsErr (List Team) := do
  let standings ← (jsonParse captured).mapError JsErr.thrown
  let rows ← rowsToMap (jsFieldOpt (jsIndexOpt (some standings) 0) "rows")
  rows.mapM rowToTeam

/-- src/server.js lines 71-104, the two fallback patterns of the
Primary-Page Extractor: the inline Image pattern, then (only when it
matched nothing) the table-row pattern, sorted. -/
def fallbackPatterns (html : String) : List Team :=
  let teams := (matchAllRx imageRx html.data).map (fun m =>
    withScore
      { code := capStr m 1
        name := jsTrim (capStr m 2)
        gold := some (Json.str (capStr m 3))
        silver := some (Json.str (capStr m 4))
        bronze := some (Json.str (capStr m 5))
        total := some (Json.str (capStr m 6)) })
  let teams := if teams.isEmpty then
      (matchAllRx tableRowRx html.data).map (fun m =>
        withScore
          { code := capStr m 1
            name := jsTrim (capStr m 2)
            gold := some (Json.str (capStr m 3))
            silver := some (Json.str (capStr m 4))
            bronze := some (Json.str (capStr m 5))
            total := none })
    else teams
  sortTeams teams

/-- src/server.js lines 45-105: the Primary-Page Extractor.  The
embedded-JSON strategy runs inside a try/catch whose catch logs and
falls through to the fallback patterns; a non-empty embedded result
returns early, sorted.  The Except codomain records where the JS could
throw; every throw is caught, so the result is always ok. -/
def parseFromHtmlE (html : String) : Except JsErr (List Team) :=
  match execRx medalStandingsRx html.data with
  | some caps =>
    (match embeddedStandings (capStr caps 1) with
     | .ok teams =>
       if teams.isEmpty then .ok (fallbackPatterns html)
       else .ok (sortTeams teams)
     | .error _ => .ok (fallbackPatterns html))
  | none => .ok (fallbackPatterns html)

/-- src/server.js lines 108-131: the Secondary-Page Extractor: locate
the first matching wikitable, map its rows (name cell stripped of tags
and nbsp entities, then trimmed), sort; an empty list when the table
is missing. -/
def parseWikipediaE (html : String) : Except JsErr (List Team) :=
  match execRx wikiTableRx html.data with
  | none => .ok []
  | some caps =>
    let tbody := capStr caps 1
    let teams := (matchAllRx wikiRowRx tbody.data).map (fun m =>
      let nameText := jsTrim (String.mk (replaceNbsp (stripTags
        (capStr m 1).data)))
      withScore
        { code := (nameText.take 3).toUpper
          name := nameText
          gold := some (Json.str (capStr m 2))
          silver := some (Json.str (capStr m 3))
          bronze := some (Json.str (capStr m 4))
          total := some (Json.str (capStr m 5)) })
    .ok (sortTeams teams)

/-- src/server.js lines 163-182: httpGetJson.  The direct fetch
(network, status check and res.json() combined) is the first
parameter; the curl stdout the second.  On a direct failure the curl
output is JSON.parsed inside the inner try; any failure there rethrows
the ORIGINAL error. -/
def httpGetJson (direct : Except String Json)
    (curlOut : Except String String) : Except String Json :=
  match direct with
  | .ok v => .ok v
  | .error err =>
    match curlOut with
    | .error _ => .error err
    | .ok stdout =>
      match jsonParse stdout with
      | .ok v => .ok v
      | .error _ => .error err

/-- src/server.js lines 184-201: httpGetText, same shape without the
parse step. -/
def httpGetText (direct : Except String String)
    (curlOut : Except String String) : Except String String :=
  match direct with
  | .ok v => .ok v
  | .error err =>
    match curlOut with
    | .error _ => .error err
    | .ok stdout => .ok stdout

/-- The outcome of `await fetchApiJson()` inside fetchMedals: a
transport failure of the underlying JSON fetch, or the extractor run
on the parsed response. -/
def apiStage (apiJson : Except String Json) : Except JsErr (List Team) :=
  match apiJson with
  | .error m => .error (.transport m)
  | .ok j => fetchApiJsonModel j

/-- src/server.js lines 203-232: the Fallback Orchestrator.  The three
transport results (API JSON body, primary page text, wiki page text)
are the function's environment; the try/catch around fetchApiJson
turns ANY of its failures into the HTML fallback; page parse results
drive the second fallback; the terminal error fires when both parses
come back empty. -/
def fetchMedals (apiJson : Except String Json)
    (pageHtml wikiHtml : Except String String) : Except JsErr (List Team) :=
  match apiStage apiJson with
  | .ok ts => .ok ts
  | .error _ =>
    match pageHtml with
    | .error m => .error (.transport m)
    | .ok html =>
      match parseFromHtmlE html with
      | .error e => .error e
      | .ok teams =>
        if teams.isEmpty then
          match wikiHtml with
          | .error m => .error (.transport m)
          | .ok wh =>
            match parseWikipediaE wh with
            | .error e => .error e
            | .ok ts2 =>
              if ts2.isEmpty then .error JsErr.terminal else .ok ts2
        else .ok teams

/-- Did this Except succeed? -/
def exceptIsOk {ε α : Type} : Except ε α → Bool
  | .ok _ => true
  | .error _ => false

/-- Sorting returns the empty list only for the empty list. -/
lemma sortTeams_eq_nil_iff (l : List Team) : sortTeams l = [] ↔ l = [] := by
  constructor
  · intro h
    have hp := List.perm_insertionSort teamLe l
    rw [sortTeams] at h
    rw [h] at hp
    exact (List.Perm.nil_eq hp).symm
  · intro h
    rw [h]
    rfl

/-- A successful Structured-API extraction is never empty. -/
lemma apiOk_ne_nil (j : Json) (ts : List Team)
    (h : fetchApiJsonModel j = .ok ts) : ts ≠ [] := by
  unfold fetchApiJsonModel at h
  cases hr : apiRowsOf j with
  | error e => rw [hr] at h; exact absurd h (by simp [Bind.bind, Except.bind])
  | ok rows =>
    rw [hr] at h
    simp only [Bind.bind, Except.bind] at h
    cases hm : rows.mapM rowToTeam with
    | error e => rw [hm] at h; exact absurd h (by simp)
    | ok teams =>
      rw [hm] at h
      dsimp only at h
      by_cases he : teams.isEmpty
      · rw [if_pos he] at h
        exact absurd h (by simp [throw, throwThe, MonadExceptOf.throw])
      · rw [if_neg he] at h
        simp only [pure, Except.pure, Except.ok.injEq] at h
        intro hnil
        rw [hnil] at h
        exact he (by rw [(sortTeams_eq_nil_iff teams).mp h]; rfl)

/-- The cells row of the spec's Norway scenario RawRecord: name
"Norway", counts "12"/"7"/"7" as strings, total absent. -/
def norwayRow : Json :=
  Json.obj [("cells", Json.arr [Json.str "Norway", Json.str "12",
    Json.str "7", Json.str "7"])]

/-- The Team the code actually produces for the Norway scenario: the
claimed fields except that the score is 53.5 (12*3 + 7*1.5 + 7*1),
not 58.5. -/
def norwayTeam : Team :=
  { code := "NOR", name := "Norway", gold := some 12, silver := some 7,
    bronze := some 7, total := some (some 26), score := some (107 / 2) }

/-- C6 counterexample: normalizing the Norway record does NOT yield the
claimed Team with score 58.5 — the weighted sum 12*3 + 7*1.5 + 7*1 is
53.5, so the claim's scenario output is wrong in its score field. -/
theorem c6_counterexample :
    rowToTeam norwayRow ≠
      Except.ok { norwayTeam with score := some (117 / 2) } := by
  have hval : rowToTeam norwayRow = Except.ok norwayTeam := by
    with_unfolding_all rfl
  rw [hval]
  intro hc
  simp only [Except.ok.injEq] at hc
  have hs := congrArg Team.score hc
  simp only [norwayTeam] at hs
  rw [Option.some.injEq] at hs
  norm_num at hs

/-- C6 as amended: normalizing the RawRecord name "Norway",
gold "12", silver "7", bronze "7" (total absent) yields exactly the
Team code "NOR", name "Norway", gold 12, silver 7, bronze 7,
total 26, score 53.5. -/
theorem c6_norway_scenario :
    rowToTeam norwayRow = Except.ok norwayTeam := by
  with_unfolding_all rfl

/-- C7: the Structured-API Extractor throws (the no-entries error) as
soon as the extracted row collection is empty, and a successful result
is never the empty team list. -/
theorem c7_empty_api_result_throws (d : Json) :
    (apiRowsOf d = .ok [] → fetchApiJsonModel d = .error JsErr.noEntries)
    ∧ (∀ ts, fetchApiJsonModel d = .ok ts → ts ≠ []) := by
  constructor
  · intro h
    unfold fetchApiJsonModel
    rw [h]
    rfl
  · intro ts h
    exact apiOk_ne_nil d ts h

/-- The spec's C7 scenario input: one standing whose rows array is
empty. -/
def emptyRowsData : Json :=
  Json.obj [("medalStandings", Json.arr [Json.obj [("rows",
    Json.arr [])]])]

/-- Witness for C7 at the scenario input. -/
theorem c7_witness :
    fetchApiJsonModel emptyRowsData = .error JsErr.noEntries :=
  (c7_empty_api_result_throws emptyRowsData).1 (by with_unfolding_all rfl)

/-- The API response that succeeds with the single Norway team. -/
def norwayApiData : Json :=
  Json.obj [("medalStandings", Json.arr [Json.obj [("rows",
    Json.arr [norwayRow])]])]

/-- The Primary-Page Extractor never lets an exception escape: every
throw-capable step sits inside its try/catch, so the result is always
ok. -/
lemma parseFromHtmlE_ok (html : String) :
    ∃ ts, parseFromHtmlE html = .ok ts := by
  unfold parseFromHtmlE
  cases execRx medalStandingsRx html.data with
  | none => exact ⟨_, rfl⟩
  | some caps =>
    dsimp only
    cases embeddedStandings (capStr caps 1) with
    | error e => exact ⟨_, rfl⟩
    | ok teams =>
      dsimp only
      by_cases h : teams.isEmpty
      · rw [if_pos h]
        exact ⟨_, rfl⟩
      · rw [if_neg h]
        exact ⟨_, rfl⟩

/-- The Secondary-Page Extractor has no throw-capable step at all. -/
lemma parseWikipediaE_ok (html : String) :
    ∃ ts, parseWikipediaE html = .ok ts := by
  unfold parseWikipediaE
  cases execRx wikiTableRx html.data with
  | none => exact ⟨_, rfl⟩
  | some caps => exact ⟨_, rfl⟩

/-- C1: the Fallback Orchestrator.  (i) When the Structured-API
Extractor succeeds its (necessarily non-empty) result is returned
as-is, whatever the page fetches would have yielded.  (ii) On any API
failure it runs the Primary-Page Extractor on the fetched page and
consults the Secondary-Page Extractor exactly when the primary parse
is empty, failing terminally when that one is empty too.  (iii) The
terminal error occurs if and only if the API stage failed AND the
primary page was fetched and parsed to zero records AND the secondary
page was fetched and parsed to zero records. -/
theorem c1_fetchMedals_fallback_chain :
    (∀ (j : Json) (ts : List Team) (p w : Except String String),
        fetchApiJsonModel j = .ok ts →
        fetchMedals (.ok j) p w = .ok ts ∧ ts ≠ [])
    ∧ (∀ (a : Except String Json) (hp hw : String),
        exceptIsOk (apiStage a) = false →
        fetchMedals a (.ok hp) (.ok hw) =
          (match parseFromHtmlE hp with
           | .error e => .error e
           | .ok teams =>
             if teams.isEmpty then
               (match parseWikipediaE hw with
                | .error e => .error e
                | .ok ts2 =>
                  if ts2.isEmpty then .error JsErr.terminal else .ok ts2)
             else .ok teams))
    ∧ (∀ (a : Except String Json) (p w : Except String String),
        fetchMedals a p w = .error JsErr.terminal ↔
          (exceptIsOk (apiStage a) = false
           ∧ (∃ hp, p = .ok hp ∧ parseFromHtmlE hp = .ok [])
           ∧ (∃ hw, w = .ok hw ∧ parseWikipediaE hw = .ok []))) := by
  refine ⟨?_, ?_, ?_⟩
  · intro j ts p w h
    have hstage : apiStage (Except.ok j) = Except.ok ts := by
      unfold apiStage
      exact h
    constructor
    · unfold fetchMedals
      rw [hstage]
    · exact apiOk_ne_nil j ts h
  · intro a hp hw hok
    unfold fetchMedals
    cases ha : apiStage a with
    | ok ts =>
      rw [ha] at hok
      exact absurd hok (by simp [exceptIsOk])
    | error e => rfl
  · intro a p w
    constructor
    · intro h
      unfold fetchMedals at h
      cases ha : apiStage a with
      | ok ts =>
        rw [ha] at h
        exact absurd h (by simp)
      | error e =>
        rw [ha] at h
        dsimp only at h
        refine ⟨by rfl, ?_⟩
        cases hpv : p with
        | error m =>
          rw [hpv] at h
          exact absurd h (by simp)
        | ok php =>
          rw [hpv] at h
          dsimp only at h
          obtain ⟨ts, hts⟩ := parseFromHtmlE_ok php
          rw [hts] at h
          dsimp only at h
          by_cases hemp : ts.isEmpty
          · rw [if_pos hemp] at h
            have htsnil : ts = [] := List.isEmpty_iff.mp hemp
            refine ⟨⟨php, rfl, by rw [hts, htsnil]⟩, ?_⟩
            cases hwv : w with
            | error m =>
              rw [hwv] at h
              exact absurd h (by simp)
            | ok whw =>
              rw [hwv] at h
              dsimp only at h
              obtain ⟨ts2, hts2⟩ := parseWikipediaE_ok whw
              rw [hts2] at h
              dsimp only at h
              by_cases hemp2 : ts2.isEmpty
              · exact ⟨whw, rfl, by rw [hts2, List.isEmpty_iff.mp hemp2]⟩
              · rw [if_neg hemp2] at h
                exact absurd h (by simp)
          · rw [if_neg hemp] at h
            exact absurd h (by simp)
    · rintro ⟨hok, ⟨php, hpv, hpe⟩, ⟨whw, hwv, hwe⟩⟩
      subst hpv
      subst hwv
      unfold fetchMedals
      cases ha : apiStage a with
      | ok ts =>
        rw [ha] at hok
        exact absurd hok (by simp [exceptIsOk])
      | error e =>
        dsimp only
        rw [hpe]
        dsimp only [List.isEmpty_nil, if_true]
        rw [hwe]
        rfl

/-- Witness for C1: the Norway API response short-circuits the chain;
a failed API stage with unparseable pages reaches the terminal error,
through both the sequencing equation and the iff. -/
theorem c1_witness :
    (fetchMedals (.ok norwayApiData) (.ok "") (.ok "") = .ok [norwayTeam]
      ∧ ([norwayTeam] : List Team) ≠ [])
    ∧ fetchMedals (.error "api down") (.ok "") (.ok "") =
        .error JsErr.terminal
    ∧ fetchMedals (.error "boom") (.ok "") (.ok "") =
        .error JsErr.terminal := by
  refine ⟨?_, ?_, ?_⟩
  · exact c1_fetchMedals_fallback_chain.1 norwayApiData [norwayTeam]
      (.ok "") (.ok "") (by with_unfolding_all rfl)
  · rw [c1_fetchMedals_fallback_chain.2.1 (.error "api down") "" "" rfl]
    with_unfolding_all rfl
  · exact (c1_fetchMedals_fallback_chain.2.2 (.error "boom")
      (.ok "") (.ok "")).mpr
      ⟨rfl, ⟨"", rfl, by with_unfolding_all rfl⟩,
        ⟨"", rfl, by with_unfolding_all rfl⟩⟩

/-- C8: in both transport operations, when the direct fetch has failed
and the curl fallback also fails — the process failing, or (for the
JSON variant) its output failing to parse — the error given to the
caller is the original direct-fetch failure. -/
theorem c8_original_error_propagates :
    (∀ e m : String, httpGetJson (.error e) (.error m) = .error e)
    ∧ (∀ e s pm : String, jsonParse s = .error pm →
        httpGetJson (.error e) (.ok s) = .error e)
    ∧ (∀ e m : String, httpGetText (.error e) (.error m) = .error e) := by
  refine ⟨fun e m => rfl, fun e s pm h => ?_, fun e m => rfl⟩
  unfold httpGetJson
  dsimp only
  rw [h]

/-- Witness for C8: a network failure survives a failed curl, and a
curl that returned unparseable output. -/
theorem c8_witness :
    httpGetJson (.error "network down") (.error "spawn failed") =
      .error "network down"
    ∧ httpGetJson (.error "network down") (.ok "not json") =
      .error "network down"
    ∧ httpGetText (.error "network down") (.error "spawn failed") =
      .error "network down" :=
  ⟨c8_original_error_propagates.1 "network down" "spawn failed",
   c8_original_error_propagates.2.1 "network down" "not json"
     "unexpected token in JSON" (by with_unfolding_all rfl),
   c8_original_error_propagates.2.2 "network down" "spawn failed"⟩

/-- C9: both page extractors are total: on every input string —
however malformed its embedded JSON or its markup — they return a
(possibly empty) team list rather than an exception. -/
theorem c9_page_extractors_total (html : String) :
    (∃ ts, parseFromHtmlE html = .ok ts)
    ∧ (∃ ts2, parseWikipediaE html = .ok ts2) :=
  ⟨parseFromHtmlE_ok html, parseWikipediaE_ok html⟩
